import Mathlib

/-!
Verification of the batch-classification scheduler of `cs_ner_local`.

This file gives a shallow embedding of the parts of the repository that the
claims are about:

* `cs_ner_local/utils.py` : `count_tokens` and the `StatusTracker` counters;
* `cs_ner_local/processor.py` : the `APIRequest` value object and its
  `call_api` completion continuation, the `CheckpointManager` payload shape,
  and the main scheduler loop of `process_api_requests`.

Modelling conventions:

* Python floats (wall-clock times, rate capacities) are modelled as `ℚ`;
  the arithmetic performed on them (`+`, `-`, `*`, `/ 60`, `min`) is exact.
* Record dictionaries (input rows, result records, parsed model replies) are
  modelled as association lists `PyDict`; `dict.get` with its `None` default
  is `dictGet`.  Elements of a parsed JSON array are modelled as such
  dictionaries (the repository only ever length-checks them, so the internal
  shape of a non-dictionary element is irrelevant to every claim).
* `json.loads` is Python standard library, external to the repository; it is
  a parameter `jl : String → Except String PyVal` of the model.  The code
  fence stripping that the repository performs before calling it
  (`cleanText`) and the shape check performed after it are embedded from the
  source.
* The outcome of the one `await client.chat.completions.create(...)` call is
  external input: `CallOutcome.failure msg` is the outer exception path and
  `CallOutcome.success text` is a received raw reply.
* The cooperative `asyncio` execution is modelled as a transition system: a
  `SchedEvent.loopIter now` transition runs one iteration of the `while`
  loop of `process_api_requests`, and a `SchedEvent.complete i oc now`
  transition runs the completion continuation (`call_api` after its `await`)
  of the `i`-th in-flight task.  Each continuation body is atomic in the
  source (no `await` between the response arriving and the bookkeeping), so
  this granularity is faithful.
-/

/-- Python literal values occurring in the record dictionaries the scheduler
handles: strings, integers and `None`. -/
inductive PyLit where
  | pnone
  | pstr (s : String)
  | pint (n : Int)
  deriving DecidableEq, Repr

/-- A Python dictionary with string keys, as produced by
`DataFrame.to_dict(orient="records")` and by the fallback-record literals in
`call_api`. -/
abbrev PyDict := List (String × PyLit)

/-- Model of `dict.get(key)`: the value stored at `key`, or `None` when the
key is absent (`processor.py`, `itm.get(id_key)`). -/
def dictGet (d : PyDict) (k : String) : PyLit :=
  (List.lookup k d).getD PyLit.pnone

/-- Constant `BATCH_SIZE = 5` of `processor.py`. -/
def BATCH_SIZE : Nat := 5

/-- Constant `CHECKPOINT_INTERVAL = 10` of `processor.py`. -/
def CHECKPOINT_INTERVAL : Nat := 10

/-- Embedding of `count_tokens` from `cs_ner_local/utils.py`.  The local
variable `_tiktoken_encoding` is assigned `None` unconditionally at the top
of the function body (the tiktoken import is commented out), so the function
always takes the fallback branch `max(1, len(text) // 2)`. -/
def count_tokens (text : String) : Nat :=
  max 1 (text.length / 2)

/-- The fields of `config.DomainConfig` that the scheduler reads: the domain
name (used to pick the identifier key) and the user-message renderer. -/
structure DomainConfig where
  domain_name : String
  user_message_creator : List PyDict → String

/-- The identifier key chosen in `get_batch_id` and in the fallback branch of
`call_api`: `"thread_id"` for the `air` domain and `"ticket_id"` otherwise. -/
def idKey (config : DomainConfig) : String :=
  if config.domain_name = "air" then "thread_id" else "ticket_id"

/-- Embedding of the `APIRequest` dataclass of `processor.py` (the mutable
`result` list is not a field here: the records a completion appends to
`save_results` are returned by the completion function instead). -/
structure APIRequest where
  task_id : Nat
  batch_items : List PyDict
  token_consumption : Nat
  attempts_left : Nat
  system_msg : String
  config : DomainConfig
  user_msg : String
  error_msg : String

/-- Construction of an `APIRequest`, including the `__post_init__` rendering
of `user_msg` from the batch via the domain's `user_message_creator`. -/
def mkAPIRequest (task_id : Nat) (batch_items : List PyDict)
    (token_consumption : Nat) (attempts_left : Nat) (system_msg : String)
    (config : DomainConfig) : APIRequest :=
  { task_id := task_id
    batch_items := batch_items
    token_consumption := token_consumption
    attempts_left := attempts_left
    system_msg := system_msg
    config := config
    user_msg := config.user_message_creator batch_items
    error_msg := "" }

/-- Embedding of the `StatusTracker` dataclass of `cs_ner_local/utils.py`.
Counters are Python integers; the rate-limit timestamp is a wall-clock
reading. -/
structure StatusTracker where
  num_tasks_started : Int := 0
  num_tasks_in_progress : Int := 0
  num_tasks_succeeded : Int := 0
  num_tasks_failed : Int := 0
  num_rate_limit_errors : Int := 0
  num_api_errors : Int := 0
  num_other_errors : Int := 0
  time_of_last_rate_limit_error : ℚ := 0

/-- The fresh tracker constructed at the top of `process_api_requests`. -/
def StatusTracker.init : StatusTracker := {}

/-- A Python value as returned by `json.loads`, at the granularity the
repository inspects it: either a list (whose elements are record
dictionaries) or any other value (which fails the `isinstance(parsed, list)`
check). -/
inductive PyVal where
  | plist (xs : List PyDict)
  | other

/-- Outcome of the outer `client.chat.completions.create` call in
`call_api`: either the surrounding `try` raises (transport / provider /
rate-limit error) or a raw reply text is received. -/
inductive CallOutcome where
  | failure (msg : String)
  | success (text : String)

/-- Embedding of the markdown code-fence cleanup performed on the raw reply
in `call_api` (lines 125-129 of `processor.py`): `strip()`, drop a leading
`"```json"` (7 characters), drop a trailing `"```"` (3 characters). -/
def cleanText (text : String) : String :=
  let c := text.trim
  let c := if c.startsWith "```json" then c.drop 7 else c
  if c.endsWith "```" then c.dropRight 3 else c

/-- Model of the Python substring test `pat in s` (used as
`"rate limit" in str(e).lower()`), for a non-empty pattern. -/
def strContains (s pat : String) : Bool :=
  (s.splitOn pat).length != 1

/-- The body of the outer `try` of `call_api` after the response arrived:
clean the text, run `json.loads` (`jl`), and check
`isinstance(parsed, list) and len(parsed) == len(self.batch_items)`.
On failure it returns the error message together with the flag telling which
handler catches it: `JSONDecodeError` is caught by the inner handler
(flag `false`), while the `ValueError("Response format error")` raised on a
failed shape check propagates to the outer `except Exception` handler
(flag `true`, since `except json.JSONDecodeError` does not catch a plain
`ValueError`), exactly like a transport failure. -/
def tryResponse (jl : String → Except String PyVal) (batch_items : List PyDict) :
    CallOutcome → Except (String × Bool) (List PyDict)
  | .failure msg => .error (msg, true)
  | .success text =>
    match jl (cleanText text) with
    | .error m => .error (m, false)
    | .ok (.plist xs) =>
      if xs.length = batch_items.length then .ok xs
      else .error ("Response format error", true)
    | .ok .other => .error ("Response format error", true)

/-- Tracker bookkeeping of the outer `except Exception` handler of
`call_api`: increment `num_api_errors`; when the message contains
`"rate limit"`, count it as a rate-limit error instead and stamp the time.
The inner `JSONDecodeError` handler performs no tracker update
(`outer = false`). -/
def recordError (st : StatusTracker) (msg : String) (outer : Bool) (now : ℚ) :
    StatusTracker :=
  if outer then
    let st := { st with num_api_errors := st.num_api_errors + 1 }
    if strContains msg.toLower "rate limit" then
      { st with
        num_rate_limit_errors := st.num_rate_limit_errors + 1
        num_api_errors := st.num_api_errors - 1
        time_of_last_rate_limit_error := now }
    else st
  else st

/-- The fallback records synthesized on final failure of a request
(lines 165-169 of `processor.py`): one record per batch item, carrying the
item's identifier value, three `None` labels and the error message. -/
def fallbackRecords (config : DomainConfig) (batch_items : List PyDict)
    (errMsg : String) : List PyDict :=
  batch_items.map fun itm =>
    [(idKey config, dictGet itm (idKey config)),
     ("level1", PyLit.pnone), ("level2", PyLit.pnone), ("level3", PyLit.pnone),
     ("error", PyLit.pstr errMsg)]

/-- Effect of one `call_api` completion: the request re-enqueued onto the
retry queue (if any), the records appended to `save_results`, and the updated
tracker. -/
structure CallResult where
  retry : Option APIRequest
  appended : List PyDict
  tracker : StatusTracker

/-- Embedding of the completion continuation of `APIRequest.call_api`
(everything after the `await`, lines 120-177 of `processor.py`), as a pure
function of the request, the outcome of the outbound call, the tracker and
the current wall-clock time. -/
def call_api (jl : String → Except String PyVal) (req : APIRequest)
    (oc : CallOutcome) (st : StatusTracker) (now : ℚ) : CallResult :=
  match tryResponse jl req.batch_items oc with
  | .error (msg, outer) =>
    let st := recordError st msg outer now
    if 0 < req.attempts_left then
      { retry := some { req with attempts_left := req.attempts_left - 1
                                 error_msg := msg }
        appended := []
        tracker := st }
    else
      { retry := none
        appended := fallbackRecords req.config req.batch_items msg
        tracker := { st with
          num_tasks_failed := st.num_tasks_failed + 1
          num_tasks_in_progress := st.num_tasks_in_progress - 1 } }
  | .ok xs =>
    { retry := none
      appended := xs
      tracker := { st with
        num_tasks_succeeded := st.num_tasks_succeeded + 1
        num_tasks_in_progress := st.num_tasks_in_progress - 1 } }

/-- The parameters of `process_api_requests` that the scheduler reads (the
client handle and deployment name only feed the outbound call, which is
external input here). -/
structure Params where
  config : DomainConfig
  system_msg : String
  max_requests_per_minute : ℚ
  max_tokens_per_minute : ℚ
  max_attempts : Nat
  input_file : String

/-- The payload written by `CheckpointManager.save` (the timestamp, input
file name and domain fields are metadata copied verbatim and read by no
claim). -/
structure Checkpoint where
  processed_batch_idx : Nat
  total_batches : Nat
  results : List PyDict

/-- An operation performed on the checkpoint store during a run. -/
inductive CkptOp where
  | load
  | save (c : Checkpoint)
  | cleanup

/-- State of `process_api_requests` between suspension points. -/
structure SchedState where
  batches : List (List PyDict)
  batch_idx : Nat
  batches_exhausted : Bool
  retryQueue : List APIRequest
  nextRequest : Option APIRequest
  inFlight : List APIRequest
  all_results : List PyDict
  tracker : StatusTracker
  task_id_ctr : Nat
  available_request_capacity : ℚ
  available_token_capacity : ℚ
  last_update_time : ℚ
  last_checkpoint_batch : Nat
  checkpointEnabled : Bool
  ckptOps : List CkptOp
  finished : Bool

/-- Embedding of the batching of the input DataFrame (lines 210-213 of
`processor.py`): consecutive chunks of `BATCH_SIZE` rows, the last chunk
possibly shorter. -/
def mkBatches : List PyDict → List (List PyDict)
  | [] => []
  | r :: rest =>
    (r :: rest).take BATCH_SIZE :: mkBatches ((r :: rest).drop BATCH_SIZE)
termination_by rows => rows.length
decreasing_by simp [BATCH_SIZE]; omega

/-- Data recovered by `CheckpointManager.load` when a checkpoint file exists
and parses. -/
structure LoadedCheckpoint where
  results : List PyDict
  processed_batch_idx : Nat

/-- The state of `process_api_requests` on entering the main loop
(lines 200-233 of `processor.py`): capacities start at their configured
maxima, the checkpoint manager exists exactly when `input_file` is
non-empty, and a loaded checkpoint restores the result list and batch
cursor, marking the backlog exhausted when the cursor is at or past the
end. -/
def initState (p : Params) (rows : List PyDict) (t0 : ℚ)
    (ck : Option LoadedCheckpoint) : SchedState :=
  let batches := mkBatches rows
  let enabled : Bool := p.input_file != ""
  let base : SchedState :=
    { batches := batches
      batch_idx := 0
      batches_exhausted := false
      retryQueue := []
      nextRequest := none
      inFlight := []
      all_results := []
      tracker := StatusTracker.init
      task_id_ctr := 0
      available_request_capacity := p.max_requests_per_minute
      available_token_capacity := p.max_tokens_per_minute
      last_update_time := t0
      last_checkpoint_batch := 0
      checkpointEnabled := enabled
      ckptOps := []
      finished := false }
  if enabled then
    match ck with
    | some c =>
      { base with
        all_results := c.results
        batch_idx := c.processed_batch_idx
        last_checkpoint_batch := c.processed_batch_idx
        batches_exhausted := decide (batches.length ≤ c.processed_batch_idx)
        ckptOps := [CkptOp.load] }
    | none => base
  else base

/-- Step 1 of a loop iteration (lines 239-276 of `processor.py`): when no
request is held, pop the retry queue first; otherwise, if fresh batches
remain, construct a new `APIRequest` for the next batch (estimating its
token cost), bump the started / in-progress counters, and save a checkpoint
every `CHECKPOINT_INTERVAL` dispatched batches when checkpointing is
enabled.  The saved completed-batch count is `len(all_results) //
BATCH_SIZE`, not the batch cursor. -/
def selectNext (p : Params) (s : SchedState) : SchedState :=
  if s.nextRequest.isSome then s
  else
    match s.retryQueue with
    | r :: rest => { s with nextRequest := some r, retryQueue := rest }
    | [] =>
      if !s.batches_exhausted && decide (s.batch_idx < s.batches.length) then
        let current_batch := s.batches.getD s.batch_idx []
        let idx := s.batch_idx + 1
        let token_count := count_tokens p.system_msg
          + count_tokens (p.config.user_message_creator current_batch)
          + 100 * current_batch.length
        let req := mkAPIRequest s.task_id_ctr current_batch token_count
          p.max_attempts p.system_msg p.config
        let s' := { s with
          nextRequest := some req
          batch_idx := idx
          batches_exhausted := decide (s.batches.length ≤ idx)
          task_id_ctr := s.task_id_ctr + 1
          tracker := { s.tracker with
            num_tasks_started := s.tracker.num_tasks_started + 1
            num_tasks_in_progress := s.tracker.num_tasks_in_progress + 1 } }
        if s'.checkpointEnabled
            && decide (CHECKPOINT_INTERVAL ≤ idx - s'.last_checkpoint_batch) then
          let c : Checkpoint :=
            { processed_batch_idx := s'.all_results.length / BATCH_SIZE
              total_batches := s'.batches.length
              results := s'.all_results }
          { s' with
            ckptOps := s'.ckptOps ++ [CkptOp.save c]
            last_checkpoint_batch := idx }
        else s'
      else s

/-- Step 2 of a loop iteration (lines 279-289 of `processor.py`): leaky
bucket refill of both capacities from the wall-clock delta, clamped at the
configured maxima. -/
def refill (p : Params) (now : ℚ) (s : SchedState) : SchedState :=
  let seconds_since_update := now - s.last_update_time
  { s with
    available_request_capacity :=
      min (s.available_request_capacity
             + p.max_requests_per_minute * seconds_since_update / 60)
          p.max_requests_per_minute
    available_token_capacity :=
      min (s.available_token_capacity
             + p.max_tokens_per_minute * seconds_since_update / 60)
          p.max_tokens_per_minute
    last_update_time := now }

/-- Step 3 of a loop iteration (lines 292-308 of `processor.py`): when a
request is held and both budgets admit it, subtract the costs and fire the
call (the request joins the in-flight set and the held slot is cleared). -/
def admitDispatch (s : SchedState) : SchedState :=
  match s.nextRequest with
  | none => s
  | some req =>
    if 1 ≤ s.available_request_capacity
        ∧ (req.token_consumption : ℚ) ≤ s.available_token_capacity then
      { s with
        available_request_capacity := s.available_request_capacity - 1
        available_token_capacity :=
          s.available_token_capacity - req.token_consumption
        inFlight := s.inFlight ++ [req]
        nextRequest := none }
    else s

/-- Step 4 of a loop iteration (lines 310-311 of `processor.py`): break out
of the loop when no task is in progress, the fresh backlog flag is set and
the retry queue is empty; the post-loop `checkpoint_mgr.cleanup()`
(lines 326-327) then deletes the checkpoint when checkpointing is
enabled. -/
def terminationCheck (s : SchedState) : SchedState :=
  if decide (s.tracker.num_tasks_in_progress = 0) && s.batches_exhausted
      && s.retryQueue.isEmpty then
    if s.checkpointEnabled then
      { s with finished := true, ckptOps := s.ckptOps ++ [CkptOp.cleanup] }
    else { s with finished := true }
  else s

/-- One full iteration of the `while True` loop of `process_api_requests`,
taken at wall-clock time `now`.  The cooldown block (lines 316-321) only
sleeps and is state-free. -/
def loopIter (p : Params) (now : ℚ) (s : SchedState) : SchedState :=
  if s.finished then s
  else terminationCheck (admitDispatch (refill p now (selectNext p s)))

/-- Completion of the `i`-th in-flight task with outcome `oc` at time `now`:
the task leaves the in-flight set and its `call_api` continuation pushes a
retry (`put_nowait`, at the tail), appends records to the shared result
list, and updates the tracker. -/
def completeTask (jl : String → Except String PyVal) (i : Nat)
    (oc : CallOutcome) (now : ℚ) (s : SchedState) : SchedState :=
  if h : i < s.inFlight.length then
    let req := s.inFlight.get ⟨i, h⟩
    let cr := call_api jl req oc s.tracker now
    { s with
      inFlight := s.inFlight.eraseIdx i
      retryQueue := s.retryQueue ++ cr.retry.toList
      all_results := s.all_results ++ cr.appended
      tracker := cr.tracker }
  else s

/-- An observable transition of the cooperative run: one scheduler loop
iteration, or the completion continuation of an in-flight call. -/
inductive SchedEvent where
  | loopIter (now : ℚ)
  | complete (i : Nat) (oc : CallOutcome) (now : ℚ)

/-- One transition of the run. -/
def schedStep (jl : String → Except String PyVal) (p : Params)
    (s : SchedState) : SchedEvent → SchedState
  | .loopIter now => loopIter p now s
  | .complete i oc now => completeTask jl i oc now s

/-- A whole (prefix of a) run: the scheduler state after a sequence of
transitions. -/
def schedRun (jl : String → Except String PyVal) (p : Params)
    (s : SchedState) (events : List SchedEvent) : SchedState :=
  events.foldl (schedStep jl p) s

/-- A cold-start execution of `process_api_requests` on the rows of the
input DataFrame: no checkpoint file is present, so no resume happens. -/
def process_api_requests (jl : String → Except String PyVal) (p : Params)
    (rows : List PyDict) (t0 : ℚ) (events : List SchedEvent) : SchedState :=
  schedRun jl p (initState p rows t0 none) events

/-- Driver for the retry lifecycle of a single request: complete the request
with a failing outbound call, follow the request that `call_api` pushes back
onto the retry queue, and repeat until `call_api` abandons it; the result is
the number of call invocations performed.  The first argument is fuel
bounding the recursion (with fuel at least `attempts_left + 1` the
lifecycle runs to abandonment). -/
def driveAllFail (jl : String → Except String PyVal) (msg : String) :
    Nat → APIRequest → Nat
  | 0, _ => 0
  | fuel + 1, req =>
    match (call_api jl req (.failure msg) StatusTracker.init 0).retry with
    | none => 1
    | some r => 1 + driveAllFail jl msg fuel r

/-- Classification of a raw reply that violates the response format contract
for a batch: the code-fence-stripped payload fails `json.loads`, or parses
to a non-list value, or parses to a list whose length differs from the
batch's item count. -/
def FormatRejected (jl : String → Except String PyVal)
    (batch_items : List PyDict) (text : String) : Prop :=
  match jl (cleanText text) with
  | .error _ => True
  | .ok (.plist xs) => xs.length ≠ batch_items.length
  | .ok .other => True

/-- Error-path bookkeeping never touches the four task counters: the outer
exception handler of `call_api` only updates the error tallies and the
rate-limit timestamp. -/
theorem recordError_counters (st : StatusTracker) (msg : String)
    (outer : Bool) (now : ℚ) :
    (recordError st msg outer now).num_tasks_started = st.num_tasks_started ∧
    (recordError st msg outer now).num_tasks_in_progress
        = st.num_tasks_in_progress ∧
    (recordError st msg outer now).num_tasks_succeeded
        = st.num_tasks_succeeded ∧
    (recordError st msg outer now).num_tasks_failed = st.num_tasks_failed := by
  simp only [recordError]
  split_ifs <;> simp

/-- A reply accepted by the shape check has exactly as many parsed records
as the batch has items. -/
theorem tryResponse_ok_length (jl : String → Except String PyVal)
    (batch_items : List PyDict) (oc : CallOutcome) (xs : List PyDict)
    (h : tryResponse jl batch_items oc = .ok xs) :
    xs.length = batch_items.length := by
  cases oc with
  | failure msg => simp [tryResponse] at h
  | success text =>
    simp only [tryResponse] at h
    generalize jl (cleanText text) = r at h
    cases r with
    | error m => simp at h
    | ok v =>
      cases v with
      | plist ys =>
        simp only [] at h
        split at h
        · cases h; assumption
        · simp at h
      | other => simp at h

/-- A format-rejected reply drives `tryResponse` into an error. -/
theorem formatRejected_error (jl : String → Except String PyVal)
    (batch_items : List PyDict) (text : String)
    (h : FormatRejected jl batch_items text) :
    ∃ msg outer,
      tryResponse jl batch_items (.success text) = .error (msg, outer) := by
  simp only [FormatRejected] at h
  simp only [tryResponse]
  generalize jl (cleanText text) = r at h ⊢
  cases r with
  | error m => exact ⟨m, false, rfl⟩
  | ok v =>
    cases v with
    | plist xs =>
      simp only [] at h
      exact ⟨"Response format error", true, by simp [h]⟩
    | other => exact ⟨"Response format error", true, rfl⟩

/-- When the outbound call (or the reply's shape) errors, the request takes
the retry-or-abandon path: nothing is counted as a success; with attempts
remaining, nothing is appended and the request is re-enqueued with one
attempt consumed; with the budget exhausted, nothing is re-enqueued, one
fallback record per item is appended and one task is counted failed. -/
theorem call_api_error_path (jl : String → Except String PyVal)
    (req : APIRequest) (oc : CallOutcome) (st : StatusTracker) (now : ℚ)
    (msg : String) (outer : Bool)
    (htr : tryResponse jl req.batch_items oc = .error (msg, outer)) :
    (call_api jl req oc st now).tracker.num_tasks_succeeded
        = st.num_tasks_succeeded ∧
    (0 < req.attempts_left →
      (call_api jl req oc st now).appended = [] ∧
      (call_api jl req oc st now).retry
        = some { req with attempts_left := req.attempts_left - 1
                          error_msg := msg }) ∧
    (req.attempts_left = 0 →
      (call_api jl req oc st now).retry = none ∧
      (call_api jl req oc st now).appended.length
          = req.batch_items.length ∧
      (call_api jl req oc st now).tracker.num_tasks_failed
          = st.num_tasks_failed + 1) := by
  obtain ⟨-, -, h3, h4⟩ := recordError_counters st msg outer now
  by_cases ha : 0 < req.attempts_left
  · refine ⟨?_, fun _ => ⟨?_, ?_⟩, fun h0 => absurd h0 (by omega)⟩ <;>
      simp [call_api, htr, ha, h3]
  · refine ⟨?_, fun hpos => absurd hpos ha, fun _ => ⟨?_, ?_, ?_⟩⟩ <;>
      simp [call_api, htr, ha, h3, h4, fallbackRecords]

/-- Identifier lookup in the fallback record built for the `i`-th item
yields exactly the `i`-th item's identifier value. -/
theorem fallbackRecords_getD (config : DomainConfig) (msg : String) :
    ∀ (l : List PyDict) (i : Nat), i < l.length →
      dictGet ((fallbackRecords config l msg).getD i []) (idKey config)
        = dictGet (l.getD i []) (idKey config) := by
  intro l
  induction l with
  | nil => intro i hi; simp at hi
  | cons a t ih =>
    intro i hi
    cases i with
    | zero => simp [fallbackRecords, dictGet, List.lookup]
    | succ n =>
      simp only [fallbackRecords, List.map_cons, List.getD_cons_succ]
      exact ih n (by simpa using hi)

/-- C10: `count_tokens` maps every string (the empty string included) to an
integer at least 1, and its value is exactly `max(1, len(text) // 2)` — the
character-based fallback, which is the only branch the source can take since
the function-local `_tiktoken_encoding` is assigned `None` unconditionally.
As a Lean function its result depends only on its argument (purity). -/
theorem c10_count_tokens_contract (text : String) :
    1 ≤ count_tokens text ∧ count_tokens text = max 1 (text.length / 2) :=
  ⟨Nat.le_max_left 1 _, rfl⟩

/-- Single unfolding of the lifecycle driver. -/
theorem driveAllFail_succ (jl : String → Except String PyVal) (msg : String)
    (fuel : Nat) (req : APIRequest) :
    driveAllFail jl msg (fuel + 1) req
      = match (call_api jl req (.failure msg) StatusTracker.init 0).retry with
        | none => 1
        | some r => 1 + driveAllFail jl msg fuel r := rfl

/-- Auxiliary to C2: a request holding `m` remaining attempts whose every
invocation fails is completed exactly `m + 1` times before abandonment. -/
theorem driveAllFail_attempts (jl : String → Except String PyVal)
    (msg : String) :
    ∀ (m : Nat) (req : APIRequest), req.attempts_left = m →
      driveAllFail jl msg (m + 1) req = m + 1 := by
  intro m
  induction m with
  | zero =>
    intro req h
    simp [driveAllFail, call_api, tryResponse, h]
  | succ n ih =>
    intro req h
    rw [driveAllFail_succ]
    simp [call_api, tryResponse, h]
    rw [ih { req with attempts_left := n, error_msg := msg } rfl]
    exact Nat.add_comm 1 (n + 1)

/-- A concrete domain configuration for witness executions (a non-`air`
domain, so the identifier key is `"ticket_id"`). -/
def cfg0 : DomainConfig :=
  { domain_name := "package", user_message_creator := fun _ => "" }

/-- A concrete `json.loads` oracle: every reply parses to a one-element
array containing an empty record. -/
def jl0 : String → Except String PyVal := fun _ => .ok (.plist [[]])

/-- A concrete `json.loads` oracle: every reply parses to a non-list JSON
value. -/
def jlBad : String → Except String PyVal := fun _ => .ok .other

/-- A concrete input row carrying identifier value `"A"`. -/
def item0 : PyDict := [("ticket_id", PyLit.pstr "A")]

/-- C2 (counterexample): the claim says a request that fails on every
invocation performs exactly `max_attempts` call invocations.  For a request
constructed with `attempts_left = max_attempts = 1` that always fails, the
lifecycle performs 2 invocations before abandonment (the same count with
surplus fuel, so the lifecycle did reach abandonment), not 1. -/
theorem c2_retry_bound_counterexample :
    driveAllFail jl0 "boom" 2 (mkAPIRequest 0 [item0] 0 1 "" cfg0) = 2 ∧
    driveAllFail jl0 "boom" 9 (mkAPIRequest 0 [item0] 0 1 "" cfg0) = 2 ∧
    ¬ driveAllFail jl0 "boom" 2 (mkAPIRequest 0 [item0] 0 1 "" cfg0) = 1 := by
  refine ⟨?_, ?_, ?_⟩ <;> decide

/-- C2 (amended): a request constructed with `attempts_left = max_attempts`
(as `process_api_requests` constructs every fresh request) whose every
invocation fails performs exactly `max_attempts + 1` call invocations before
being abandoned: the failure handler re-enqueues whenever `attempts_left >
0` — the check precedes the decrement — so abandonment only happens on the
failure after the remaining-attempts counter has already reached zero. -/
theorem c2_retry_bound_amended (jl : String → Except String PyVal)
    (msg system_msg : String) (config : DomainConfig) (task_id : Nat)
    (batch_items : List PyDict) (token_consumption max_attempts : Nat) :
    driveAllFail jl msg (max_attempts + 1)
      (mkAPIRequest task_id batch_items token_consumption max_attempts
        system_msg config)
      = max_attempts + 1 :=
  driveAllFail_attempts jl msg max_attempts _ rfl

/-- C5: a raw reply whose code-fence-stripped payload fails to parse, parses
to a non-list, or parses to a list of the wrong length is never accepted as
a success (the success counter is untouched): with attempts remaining the
request is re-enqueued with exactly one attempt consumed and nothing
appended, and with attempts exhausted it is abandoned with exactly one
fallback record per item — its items are never truncated, padded or
dropped; the routing is the same error path a transport failure takes. -/
theorem c5_format_rejection (jl : String → Except String PyVal)
    (req : APIRequest) (text : String) (st : StatusTracker) (now : ℚ)
    (h : FormatRejected jl req.batch_items text) :
    (call_api jl req (.success text) st now).tracker.num_tasks_succeeded
        = st.num_tasks_succeeded ∧
    (0 < req.attempts_left →
      (call_api jl req (.success text) st now).appended = [] ∧
      ∃ m, (call_api jl req (.success text) st now).retry
          = some { req with attempts_left := req.attempts_left - 1
                            error_msg := m }) ∧
    (req.attempts_left = 0 →
      (call_api jl req (.success text) st now).retry = none ∧
      (call_api jl req (.success text) st now).appended.length
          = req.batch_items.length ∧
      (call_api jl req (.success text) st now).tracker.num_tasks_failed
          = st.num_tasks_failed + 1) := by
  obtain ⟨msg, outer, htr⟩ := formatRejected_error jl req.batch_items text h
  obtain ⟨h1, h2, h3⟩ := call_api_error_path jl req (.success text) st now msg outer htr
  exact ⟨h1, fun ha => ⟨(h2 ha).1, msg, (h2 ha).2⟩, h3⟩

/-- C5 (witness): a reply parsing to a non-list value, against a one-item
batch with one attempt remaining, is not accepted and is re-enqueued with
nothing appended. -/
theorem c5_format_rejection_witness :
    (call_api jlBad (mkAPIRequest 0 [item0] 0 1 "" cfg0) (.success "x")
        StatusTracker.init 0).appended = [] ∧
    (call_api jlBad (mkAPIRequest 0 [item0] 0 1 "" cfg0) (.success "x")
        StatusTracker.init 0).tracker.num_tasks_succeeded
      = StatusTracker.init.num_tasks_succeeded := by
  have h := c5_format_rejection jlBad (mkAPIRequest 0 [item0] 0 1 "" cfg0)
    "x" StatusTracker.init 0 trivial
  exact ⟨(h.2.1 (by decide)).1, h.1⟩

/-- C3 (amended): identifier preservation holds on the abandonment path —
`call_api` synthesizes exactly one fallback record per batch item, and the
record in position `i` carries the identifier value of the item in position
`i` under the domain's identifier key.  (On the success path the parsed
model records are appended verbatim with no identifier validation, so the
code does not guarantee that an input item's identifier appears in the
output at all; see the counterexample.) -/
theorem c3_identifier_abandonment (jl : String → Except String PyVal)
    (req : APIRequest) (msg : String) (st : StatusTracker) (now : ℚ)
    (h : req.attempts_left = 0) :
    (call_api jl req (.failure msg) st now).appended.length
        = req.batch_items.length ∧
    ∀ i : Nat, i < req.batch_items.length →
      dictGet ((call_api jl req (.failure msg) st now).appended.getD i [])
          (idKey req.config)
        = dictGet (req.batch_items.getD i []) (idKey req.config) := by
  have htr : tryResponse jl req.batch_items (.failure msg)
      = .error (msg, true) := rfl
  have happ : (call_api jl req (.failure msg) st now).appended
      = fallbackRecords req.config req.batch_items msg := by
    simp [call_api, htr, h]
  refine ⟨?_, fun i hi => ?_⟩
  · rw [happ]; simp [fallbackRecords]
  · rw [happ]; exact fallbackRecords_getD req.config msg req.batch_items i hi

/-- C3 (witness for the amended theorem): for a one-item batch holding
identifier `"A"` and an exhausted attempt budget, the fallback record copies
the identifier. -/
theorem c3_identifier_abandonment_witness :
    dictGet ((call_api jl0 (mkAPIRequest 0 [item0] 0 0 "" cfg0)
        (.failure "boom") StatusTracker.init 0).appended.getD 0 [])
        (idKey cfg0)
      = dictGet ([item0].getD 0 []) (idKey cfg0) :=
  (c3_identifier_abandonment jl0 (mkAPIRequest 0 [item0] 0 0 "" cfg0)
    "boom" StatusTracker.init 0 rfl).2 0 (by decide)

/-- Total number of input items carried by a list of requests. -/
def itemCount (l : List APIRequest) : Nat :=
  (l.map fun r => r.batch_items.length).sum

/-- Items carried by an optionally held request. -/
def optItemCount : Option APIRequest → Nat
  | none => 0
  | some r => r.batch_items.length

theorem itemCount_append (a b : List APIRequest) :
    itemCount (a ++ b) = itemCount a + itemCount b := by
  simp [itemCount]

theorem itemCount_eraseIdx (l : List APIRequest) (i : Nat) (h : i < l.length) :
    itemCount (l.eraseIdx i) + (l.get ⟨i, h⟩).batch_items.length
      = itemCount l := by
  induction l generalizing i with
  | nil => simp at h
  | cons a t ih =>
    cases i with
    | zero => simp [itemCount, Nat.add_comm]
    | succ n =>
      have hn : n < t.length := by simpa using h
      have := ih n hn
      simp only [itemCount, List.eraseIdx, List.map_cons, List.sum_cons,
        List.get] at this ⊢
      omega

/-- Exhaustive case analysis of one completion continuation: either the
request is pushed back for retry — same batch, nothing appended, the four
task counters untouched — or it resolves terminally — nothing re-enqueued,
exactly one appended record per batch item, in-progress down by one and the
sum of succeeded and failed up by one. -/
theorem call_api_cases (jl : String → Except String PyVal) (req : APIRequest)
    (oc : CallOutcome) (st : StatusTracker) (now : ℚ) :
    (∃ r, (call_api jl req oc st now).retry = some r ∧
       r.batch_items = req.batch_items ∧
       (call_api jl req oc st now).appended = [] ∧
       (call_api jl req oc st now).tracker.num_tasks_started
           = st.num_tasks_started ∧
       (call_api jl req oc st now).tracker.num_tasks_in_progress
           = st.num_tasks_in_progress ∧
       (call_api jl req oc st now).tracker.num_tasks_succeeded
           = st.num_tasks_succeeded ∧
       (call_api jl req oc st now).tracker.num_tasks_failed
           = st.num_tasks_failed)
    ∨ ((call_api jl req oc st now).retry = none ∧
       (call_api jl req oc st now).appended.length = req.batch_items.length ∧
       (call_api jl req oc st now).tracker.num_tasks_started
           = st.num_tasks_started ∧
       (call_api jl req oc st now).tracker.num_tasks_in_progress
           = st.num_tasks_in_progress - 1 ∧
       (call_api jl req oc st now).tracker.num_tasks_succeeded
           + (call_api jl req oc st now).tracker.num_tasks_failed
         = st.num_tasks_succeeded + st.num_tasks_failed + 1) := by
  cases htr : tryResponse jl req.batch_items oc with
  | error e =>
    obtain ⟨msg, outer⟩ := e
    obtain ⟨h1, h2, h3, h4⟩ := recordError_counters st msg outer now
    by_cases ha : 0 < req.attempts_left
    · left
      refine ⟨{ req with attempts_left := req.attempts_left - 1,
                         error_msg := msg }, ?_, rfl, ?_, ?_, ?_, ?_, ?_⟩ <;>
        simp [call_api, htr, ha, h1, h2, h3, h4]
    · right
      refine ⟨?_, ?_, ?_, ?_, ?_⟩ <;>
        simp [call_api, htr, ha, h1, h2, h3, h4, fallbackRecords] <;> omega
  | ok xs =>
    right
    have hlen := tryResponse_ok_length jl req.batch_items oc xs htr
    refine ⟨?_, ?_, ?_, ?_, ?_⟩ <;> simp [call_api, htr, hlen] <;> omega

/-- C6's balance equation on the four task counters. -/
def TrackerBalanced (t : StatusTracker) : Prop :=
  t.num_tasks_started
    = t.num_tasks_succeeded + t.num_tasks_failed + t.num_tasks_in_progress

/-- Structural meaning of the in-progress counter: it counts the dispatched
calls that have not terminally resolved — those in flight, those waiting in
the retry queue, and a held candidate. -/
def InProgressCounts (s : SchedState) : Prop :=
  s.tracker.num_tasks_in_progress
    = (s.inFlight.length : Int) + s.retryQueue.length
      + (if s.nextRequest.isSome then 1 else 0)

/-- Conservation of items on a cold start: appended results plus items still
travelling (in flight, queued for retry, held, or not yet batched out)
always account for the whole input. -/
def ItemsConserved (s : SchedState) : Prop :=
  s.all_results.length + itemCount s.inFlight + itemCount s.retryQueue
      + optItemCount s.nextRequest
      + ((s.batches.drop s.batch_idx).map List.length).sum
    = (s.batches.map List.length).sum

/-- The exhaustion flag is only set once the batch cursor is at or past the
end of the backlog. -/
def ExhaustedSound (s : SchedState) : Prop :=
  s.batches_exhausted = true → s.batches.length ≤ s.batch_idx

/-- Once the loop has broken, nothing is in flight and the result list
accounts for every input item. -/
def FinishedComplete (s : SchedState) : Prop :=
  s.finished = true →
    s.inFlight = [] ∧
    s.all_results.length = (s.batches.map List.length).sum

/-- The three structural invariants that hold on every cold-start state. -/
def Inv3 (s : SchedState) : Prop :=
  ItemsConserved s ∧ InProgressCounts s ∧ ExhaustedSound s

/-- The inductive invariant used for the completeness claim (cold start). -/
def ColdInv (s : SchedState) : Prop :=
  Inv3 s ∧ FinishedComplete s

/-- Exhaustive characterization of `selectNext`: it leaves the state alone,
pops the retry queue into the held slot, or constructs the next fresh
request (possibly also saving a checkpoint). -/
theorem selectNext_spec (p : Params) (s : SchedState) :
    selectNext p s = s ∨
    (∃ r rest, s.nextRequest = none ∧ s.retryQueue = r :: rest ∧
      selectNext p s = { s with nextRequest := some r, retryQueue := rest }) ∨
    (∃ _ : s.batch_idx < s.batches.length, ∃ ops lcb,
      s.nextRequest = none ∧ s.retryQueue = [] ∧
      s.batches_exhausted = false ∧
      ((ops = s.ckptOps ∧ lcb = s.last_checkpoint_batch) ∨
        (s.checkpointEnabled = true ∧
          ops = s.ckptOps
            ++ [CkptOp.save
                { processed_batch_idx := s.all_results.length / BATCH_SIZE,
                  total_batches := s.batches.length,
                  results := s.all_results }] ∧
          lcb = s.batch_idx + 1)) ∧
      selectNext p s = { s with
        nextRequest := some (mkAPIRequest s.task_id_ctr
          (s.batches.getD s.batch_idx [])
          (count_tokens p.system_msg
            + count_tokens
                (p.config.user_message_creator (s.batches.getD s.batch_idx []))
            + 100 * (s.batches.getD s.batch_idx []).length)
          p.max_attempts p.system_msg p.config),
        batch_idx := s.batch_idx + 1,
        batches_exhausted := decide (s.batches.length ≤ s.batch_idx + 1),
        task_id_ctr := s.task_id_ctr + 1,
        tracker := { s.tracker with
          num_tasks_started := s.tracker.num_tasks_started + 1,
          num_tasks_in_progress := s.tracker.num_tasks_in_progress + 1 },
        ckptOps := ops,
        last_checkpoint_batch := lcb }) := by
  simp only [selectNext]
  split
  · exact Or.inl rfl
  · rename_i hns
    have hn : s.nextRequest = none := by
      cases hx : s.nextRequest <;> simp [hx] at hns ⊢
    split
    · rename_i r rest heq
      exact Or.inr (Or.inl ⟨r, rest, hn, heq, rfl⟩)
    · rename_i heq
      split
      · rename_i hc
        simp only [Bool.and_eq_true, Bool.not_eq_true', decide_eq_true_eq] at hc
        refine Or.inr (Or.inr ⟨hc.2, ?_⟩)
        split
        · rename_i hck
          simp only [Bool.and_eq_true] at hck
          exact ⟨_, _, hn, heq, hc.1, Or.inr ⟨hck.1, rfl, rfl⟩, rfl⟩
        · exact ⟨s.ckptOps, s.last_checkpoint_batch, hn, heq, hc.1,
            Or.inl ⟨rfl, rfl⟩, rfl⟩
      · exact Or.inl rfl

/-- Characterization of `admitDispatch`: either nothing is admitted, or the
held request joins the in-flight set with both budgets debited. -/
theorem admitDispatch_spec (s : SchedState) :
    admitDispatch s = s ∨
    (∃ req, s.nextRequest = some req ∧
      1 ≤ s.available_request_capacity ∧
      (req.token_consumption : ℚ) ≤ s.available_token_capacity ∧
      admitDispatch s = { s with
        available_request_capacity := s.available_request_capacity - 1,
        available_token_capacity :=
          s.available_token_capacity - req.token_consumption,
        inFlight := s.inFlight ++ [req],
        nextRequest := none }) := by
  unfold admitDispatch
  split
  · exact Or.inl rfl
  · rename_i req heq
    split
    · rename_i hc
      exact Or.inr ⟨req, heq, hc.1, hc.2, rfl⟩
    · exact Or.inl rfl

/-- Characterization of `terminationCheck`: the break fires exactly under
the three-way condition, setting the finished flag and (when checkpointing
is enabled) recording the cleanup. -/
theorem terminationCheck_spec (s : SchedState) :
    (terminationCheck s = s ∧
      ¬ (s.tracker.num_tasks_in_progress = 0 ∧ s.batches_exhausted = true ∧
         s.retryQueue = [])) ∨
    (s.tracker.num_tasks_in_progress = 0 ∧ s.batches_exhausted = true ∧
      s.retryQueue = [] ∧
      ∃ ops,
        ((s.checkpointEnabled = true ∧ ops = s.ckptOps ++ [CkptOp.cleanup]) ∨
          (s.checkpointEnabled = false ∧ ops = s.ckptOps)) ∧
        terminationCheck s = { s with finished := true, ckptOps := ops }) := by
  unfold terminationCheck
  split
  · rename_i hc
    simp only [Bool.and_eq_true, decide_eq_true_eq,
      List.isEmpty_iff] at hc
    refine Or.inr ⟨hc.1.1, hc.1.2, hc.2, ?_⟩
    split
    · rename_i hck
      exact ⟨s.ckptOps ++ [CkptOp.cleanup], Or.inl ⟨hck, rfl⟩, rfl⟩
    · rename_i hck
      refine ⟨s.ckptOps, Or.inr ⟨by simpa using hck, rfl⟩, rfl⟩
  · rename_i hc
    simp only [Bool.and_eq_true, decide_eq_true_eq,
      List.isEmpty_iff] at hc
    exact Or.inl ⟨rfl, by tauto⟩

/-- Characterization of `completeTask`: out-of-range completions are no-ops;
otherwise the `i`-th in-flight request leaves the in-flight set and its
`call_api` effects are applied. -/
theorem completeTask_spec (jl : String → Except String PyVal) (i : Nat)
    (oc : CallOutcome) (now : ℚ) (s : SchedState) :
    completeTask jl i oc now s = s ∨
    (∃ h : i < s.inFlight.length,
      completeTask jl i oc now s = { s with
        inFlight := s.inFlight.eraseIdx i,
        retryQueue := s.retryQueue
          ++ (call_api jl (s.inFlight.get ⟨i, h⟩) oc s.tracker now).retry.toList,
        all_results := s.all_results
          ++ (call_api jl (s.inFlight.get ⟨i, h⟩) oc s.tracker now).appended,
        tracker := (call_api jl (s.inFlight.get ⟨i, h⟩) oc s.tracker now).tracker }) := by
  unfold completeTask
  split
  · rename_i h; exact Or.inr ⟨h, rfl⟩
  · exact Or.inl rfl

theorem refill_batches (p : Params) (now : ℚ) (s : SchedState) :
    (refill p now s).batches = s.batches := rfl

theorem refill_finished (p : Params) (now : ℚ) (s : SchedState) :
    (refill p now s).finished = s.finished := rfl

theorem selectNext_batches (p : Params) (s : SchedState) :
    (selectNext p s).batches = s.batches := by
  rcases selectNext_spec p s with heq | ⟨r, rest, _, _, heq⟩ |
    ⟨_, ops, lcb, _, _, _, _, heq⟩ <;> rw [heq]

theorem selectNext_finished (p : Params) (s : SchedState) :
    (selectNext p s).finished = s.finished := by
  rcases selectNext_spec p s with heq | ⟨r, rest, _, _, heq⟩ |
    ⟨_, ops, lcb, _, _, _, _, heq⟩ <;> rw [heq]

theorem admitDispatch_batches (s : SchedState) :
    (admitDispatch s).batches = s.batches := by
  rcases admitDispatch_spec s with heq | ⟨req, _, _, _, heq⟩ <;> rw [heq]

theorem admitDispatch_finished (s : SchedState) :
    (admitDispatch s).finished = s.finished := by
  rcases admitDispatch_spec s with heq | ⟨req, _, _, _, heq⟩ <;> rw [heq]

theorem terminationCheck_batches (s : SchedState) :
    (terminationCheck s).batches = s.batches := by
  rcases terminationCheck_spec s with ⟨heq, -⟩ | ⟨-, -, -, ops, -, heq⟩ <;>
    rw [heq]

theorem completeTask_batches (jl : String → Except String PyVal) (i : Nat)
    (oc : CallOutcome) (now : ℚ) (s : SchedState) :
    (completeTask jl i oc now s).batches = s.batches := by
  rcases completeTask_spec jl i oc now s with heq | ⟨h, heq⟩ <;> rw [heq]

theorem schedStep_batches (jl : String → Except String PyVal) (p : Params)
    (s : SchedState) (e : SchedEvent) :
    (schedStep jl p s e).batches = s.batches := by
  cases e with
  | loopIter now =>
    show (loopIter p now s).batches = s.batches
    unfold loopIter
    split
    · rfl
    · rw [terminationCheck_batches, admitDispatch_batches, refill_batches,
        selectNext_batches]
  | complete i oc now => exact completeTask_batches jl i oc now s

theorem inv3_selectNext (p : Params) (s : SchedState) (h : Inv3 s) :
    Inv3 (selectNext p s) := by
  obtain ⟨hic, hip, hex⟩ := h
  unfold ItemsConserved at hic
  unfold InProgressCounts at hip
  unfold ExhaustedSound at hex
  rcases selectNext_spec p s with heq | ⟨r, rest, hn, hq, heq⟩ |
    ⟨hlt, ops, lcb, hn, hq, hexf, -, heq⟩ <;> rw [heq]
  · exact ⟨hic, hip, hex⟩
  · refine ⟨?_, ?_, ?_⟩
    · unfold ItemsConserved
      simp only [hn, hq, itemCount, optItemCount, List.map_cons,
        List.sum_cons] at hic ⊢
      omega
    · unfold InProgressCounts
      simp only [hn, hq, Option.isSome_none, Option.isSome_some, if_true,
        if_false, List.length_cons, Bool.false_eq_true, ite_false,
        ite_true] at hip ⊢
      push_cast at hip ⊢
      omega
    · intro hx
      exact hex hx
  · have hdrop : s.batches.drop s.batch_idx
        = s.batches.getD s.batch_idx [] :: s.batches.drop (s.batch_idx + 1) := by
      rw [List.getD_eq_getElem s.batches [] hlt]
      exact List.drop_eq_getElem_cons hlt
    refine ⟨?_, ?_, ?_⟩
    · unfold ItemsConserved
      rw [hdrop] at hic
      simp only [hn, hq, itemCount, optItemCount, mkAPIRequest,
        List.map_cons, List.sum_cons, List.map_nil, List.sum_nil] at hic ⊢
      omega
    · unfold InProgressCounts
      simp only [hn, hq, Option.isSome_none, Option.isSome_some,
        List.length_nil, Bool.false_eq_true, ite_false, ite_true] at hip ⊢
      push_cast at hip ⊢
      omega
    · intro hx
      simp only [decide_eq_true_eq] at hx
      exact hx

theorem inv3_refill (p : Params) (now : ℚ) (s : SchedState) (h : Inv3 s) :
    Inv3 (refill p now s) := h

theorem inv3_admitDispatch (s : SchedState) (h : Inv3 s) :
    Inv3 (admitDispatch s) := by
  obtain ⟨hic, hip, hex⟩ := h
  unfold ItemsConserved at hic
  unfold InProgressCounts at hip
  unfold ExhaustedSound at hex
  rcases admitDispatch_spec s with heq | ⟨req, hn, -, -, heq⟩ <;> rw [heq]
  · exact ⟨hic, hip, hex⟩
  · refine ⟨?_, ?_, fun hx => hex hx⟩
    · unfold ItemsConserved
      simp only [hn, itemCount, optItemCount, List.map_append,
        List.sum_append, List.map_cons, List.sum_cons, List.map_nil,
        List.sum_nil] at hic ⊢
      omega
    · unfold InProgressCounts
      simp only [hn, Option.isSome_none, Option.isSome_some,
        List.length_append, List.length_cons, List.length_nil,
        Bool.false_eq_true, ite_false, ite_true] at hip ⊢
      push_cast at hip ⊢
      omega

theorem inv3_terminationCheck (s : SchedState) (h : Inv3 s) :
    Inv3 (terminationCheck s) := by
  rcases terminationCheck_spec s with ⟨heq, -⟩ | ⟨-, -, -, ops, -, heq⟩ <;>
    rw [heq] <;> exact h

theorem inv3_completeTask (jl : String → Except String PyVal) (i : Nat)
    (oc : CallOutcome) (now : ℚ) (s : SchedState) (h : Inv3 s) :
    Inv3 (completeTask jl i oc now s) := by
  obtain ⟨hic, hip, hex⟩ := h
  unfold ItemsConserved at hic
  unfold InProgressCounts at hip
  unfold ExhaustedSound at hex
  rcases completeTask_spec jl i oc now s with heq | ⟨hi, heq⟩ <;> rw [heq]
  · exact ⟨hic, hip, hex⟩
  · have herase := itemCount_eraseIdx s.inFlight i hi
    have hlen := List.length_eraseIdx_add_one hi
    rcases call_api_cases jl (s.inFlight.get ⟨i, hi⟩) oc s.tracker now with
      ⟨r, hr, hb, happ, ht1, ht2, ht3, ht4⟩ | ⟨hr, happ, ht1, ht2, ht5⟩
    · refine ⟨?_, ?_, fun hx => hex hx⟩
      · unfold ItemsConserved
        simp only [hr, Option.toList_some, happ, List.append_nil, itemCount,
          List.map_append, List.sum_append, List.map_cons, List.sum_cons,
          List.map_nil, List.sum_nil] at hic ⊢
        simp only [itemCount] at herase
        rw [hb]
        omega
      · unfold InProgressCounts
        simp only [hr, Option.toList_some, ht2, List.length_append,
          List.length_cons, List.length_nil] at hip ⊢
        push_cast at hip ⊢
        omega
    · refine ⟨?_, ?_, fun hx => hex hx⟩
      · unfold ItemsConserved
        simp only [hr, Option.toList_none, List.append_nil,
          List.length_append, happ, itemCount] at hic ⊢
        simp only [itemCount] at herase
        omega
      · unfold InProgressCounts
        simp only [hr, Option.toList_none, List.append_nil, ht2] at hip ⊢
        push_cast at hip ⊢
        omega

/-- Every transition preserves the four-counter balance. -/
theorem trackerBalanced_step (jl : String → Except String PyVal) (p : Params)
    (s : SchedState) (e : SchedEvent) (h : TrackerBalanced s.tracker) :
    TrackerBalanced (schedStep jl p s e).tracker := by
  unfold TrackerBalanced at h
  cases e with
  | loopIter now =>
    show TrackerBalanced (loopIter p now s).tracker
    unfold loopIter
    split
    · exact h
    · have htc : ∀ x : SchedState, (terminationCheck x).tracker = x.tracker := by
        intro x
        rcases terminationCheck_spec x with ⟨heq, -⟩ | ⟨-, -, -, ops, -, heq⟩ <;>
          rw [heq]
      have had : ∀ x : SchedState, (admitDispatch x).tracker = x.tracker := by
        intro x
        rcases admitDispatch_spec x with heq | ⟨req, -, -, -, heq⟩ <;> rw [heq]
      have hrf : ∀ x : SchedState, (refill p now x).tracker = x.tracker :=
        fun _ => rfl
      rw [TrackerBalanced, htc, had, hrf]
      rcases selectNext_spec p s with heq | ⟨r, rest, -, -, heq⟩ |
        ⟨-, ops, lcb, -, -, -, -, heq⟩ <;> rw [heq]
      · exact h
      · exact h
      · show s.tracker.num_tasks_started + 1 = _
        simp only []
        omega
  | complete i oc now =>
    show TrackerBalanced (completeTask jl i oc now s).tracker
    rcases completeTask_spec jl i oc now s with heq | ⟨hi, heq⟩ <;> rw [heq]
    · exact h
    · unfold TrackerBalanced
      rcases call_api_cases jl (s.inFlight.get ⟨i, hi⟩) oc s.tracker now with
        ⟨r, -, -, -, ht1, ht2, ht3, ht4⟩ | ⟨-, -, ht1, ht2, ht5⟩ <;>
        simp only [ht1, ht2] <;> omega

/-- Invariants are preserved along whole runs. -/
theorem schedRun_preserve (jl : String → Except String PyVal) (p : Params)
    (P : SchedState → Prop)
    (hstep : ∀ s e, P s → P (schedStep jl p s e)) :
    ∀ (events : List SchedEvent) (s : SchedState),
      P s → P (schedRun jl p s events) := by
  intro events
  induction events with
  | nil => intro s h; exact h
  | cons e es ih => intro s h; exact ih _ (hstep s e h)

theorem schedRun_batches (jl : String → Except String PyVal) (p : Params)
    (events : List SchedEvent) (s : SchedState) :
    (schedRun jl p s events).batches = s.batches := by
  induction events generalizing s with
  | nil => rfl
  | cons e es ih =>
    show (schedRun jl p (schedStep jl p s e) es).batches = s.batches
    rw [ih, schedStep_batches]

theorem initState_tracker (p : Params) (rows : List PyDict) (t0 : ℚ)
    (ck : Option LoadedCheckpoint) :
    (initState p rows t0 ck).tracker = StatusTracker.init := by
  simp only [initState]
  cases ck <;> split <;> rfl

/-- Batching never loses or duplicates an input row. -/
theorem sum_mkBatches (rows : List PyDict) :
    ((mkBatches rows).map List.length).sum = rows.length := by
  have H : ∀ (n : Nat) (l : List PyDict), l.length ≤ n →
      ((mkBatches l).map List.length).sum = l.length := by
    intro n
    induction n with
    | zero =>
      intro l hl
      have hnil : l = [] := List.length_eq_zero.mp (Nat.le_zero.mp hl)
      subst hnil
      simp [mkBatches]
    | succ n ih =>
      intro l hl
      cases l with
      | nil => simp [mkBatches]
      | cons r rest =>
        rw [mkBatches]
        simp only [List.map_cons, List.sum_cons, List.length_take]
        rw [ih ((r :: rest).drop BATCH_SIZE)
          (by simp [BATCH_SIZE]; simp at hl; omega)]
        simp only [List.length_drop, List.length_cons, BATCH_SIZE]
        omega
  exact H rows.length rows le_rfl

/-- C6: after every transition of a run — each loop iteration (request
construction included) and each completion continuation — the tracker
satisfies `num_tasks_succeeded + num_tasks_failed + num_tasks_in_progress =
num_tasks_started`; retries change none of the four counters, construction
raises started and in-progress together, and a terminal resolution raises
exactly one of succeeded / failed while lowering in-progress. -/
theorem c6_tracker_invariant (jl : String → Except String PyVal) (p : Params)
    (rows : List PyDict) (t0 : ℚ) (ck : Option LoadedCheckpoint)
    (events : List SchedEvent) :
    TrackerBalanced (schedRun jl p (initState p rows t0 ck) events).tracker := by
  refine schedRun_preserve jl p (fun s => TrackerBalanced s.tracker)
    (fun s e h => trackerBalanced_step jl p s e h) events _ ?_
  show TrackerBalanced (initState p rows t0 ck).tracker
  rw [initState_tracker]
  unfold TrackerBalanced StatusTracker.init
  simp

theorem coldInv_step (jl : String → Except String PyVal) (p : Params)
    (s : SchedState) (e : SchedEvent) (h : ColdInv s) :
    ColdInv (schedStep jl p s e) := by
  obtain ⟨h3, hfc⟩ := h
  cases e with
  | loopIter now =>
    show ColdInv (loopIter p now s)
    unfold loopIter
    split
    · exact ⟨h3, hfc⟩
    · rename_i hnf
      have hf : s.finished = false := by
        cases hx : s.finished
        · rfl
        · exact absurd hx hnf
      set s1 := selectNext p s with hs1
      set s2 := refill p now s1 with hs2
      set s3 := admitDispatch s2 with hs3
      have h31 : Inv3 s1 := inv3_selectNext p s h3
      have h32 : Inv3 s2 := inv3_refill p now s1 h31
      have h33 : Inv3 s3 := inv3_admitDispatch s2 h32
      have hf3 : s3.finished = false := by
        rw [hs3, admitDispatch_finished, hs2, refill_finished, hs1,
          selectNext_finished]
        exact hf
      obtain ⟨hic, hip, hex⟩ := h33
      rcases terminationCheck_spec s3 with ⟨heq, -⟩ |
        ⟨hip0, hexh, hq, ops, -, heq⟩ <;> rw [heq]
      · exact ⟨⟨hic, hip, hex⟩, fun hx => absurd hx (by simp [hf3])⟩
      · refine ⟨⟨hic, hip, hex⟩, fun _ => ?_⟩
        unfold InProgressCounts at hip
        rw [hip0, hq] at hip
        have hnone : s3.nextRequest = none := by
          cases hx : s3.nextRequest with
          | none => rfl
          | some r => rw [hx] at hip; simp at hip; omega
        rw [hnone] at hip
        simp at hip
        have hfl : s3.inFlight = [] := List.length_eq_zero.mp (by omega)
        refine ⟨hfl, ?_⟩
        unfold ItemsConserved at hic
        rw [hfl, hq, hnone] at hic
        have hdrop : s3.batches.drop s3.batch_idx = [] :=
          List.drop_eq_nil_of_le (hex hexh)
        rw [hdrop] at hic
        simpa [itemCount, optItemCount] using hic
  | complete i oc now =>
    show ColdInv (completeTask jl i oc now s)
    have h3c := inv3_completeTask jl i oc now s h3
    rcases completeTask_spec jl i oc now s with heq | ⟨hi, heq⟩
    · rw [heq]; exact ⟨h3, hfc⟩
    · refine ⟨h3c, ?_⟩
      rw [heq]
      intro hx
      have : s.finished = true := hx
      have hfl := (hfc this).1
      rw [hfl] at hi
      simp at hi

/-- C1: on a cold start (no checkpoint), whenever the scheduler loop has
terminated, the result list returned by `process_api_requests` holds exactly
one record per input row: an accepted batch appends a parsed list whose
length is checked against the batch size, an abandoned batch appends one
fallback record per item, and a retried request appends nothing until it
terminally resolves. -/
theorem c1_completeness_cold_run (jl : String → Except String PyVal)
    (p : Params) (rows : List PyDict) (t0 : ℚ) (events : List SchedEvent)
    (h : (process_api_requests jl p rows t0 events).finished = true) :
    (process_api_requests jl p rows t0 events).all_results.length
      = rows.length := by
  have hinit : ColdInv (initState p rows t0 none) := by
    have htr := initState_tracker p rows t0 none
    refine ⟨⟨?_, ?_, ?_⟩, ?_⟩
    · unfold ItemsConserved
      simp only [initState]
      split <;> simp [itemCount, optItemCount]
    · unfold InProgressCounts
      rw [htr]
      simp only [initState]
      split <;> simp [StatusTracker.init]
    · unfold ExhaustedSound
      simp only [initState]
      split <;> simp
    · unfold FinishedComplete
      simp only [initState]
      split <;> simp
  have hinv : ColdInv (process_api_requests jl p rows t0 events) :=
    schedRun_preserve jl p ColdInv (coldInv_step jl p) events _ hinit
  have hres := (hinv.2 h).2
  have hb : (process_api_requests jl p rows t0 events).batches
      = mkBatches rows := by
    unfold process_api_requests
    rw [schedRun_batches]
    simp only [initState]
    cases ck : (none : Option LoadedCheckpoint) <;> split <;> rfl
  rw [hb] at hres
  rw [hres, sum_mkBatches]

/-- Checkpoint-store frame predicate for runs without an input file. -/
def NoCkptOps (s : SchedState) : Prop :=
  s.checkpointEnabled = false ∧ s.ckptOps = []

theorem noCkptOps_step (jl : String → Except String PyVal) (p : Params)
    (s : SchedState) (e : SchedEvent) (h : NoCkptOps s) :
    NoCkptOps (schedStep jl p s e) := by
  obtain ⟨hen, hops⟩ := h
  cases e with
  | loopIter now =>
    show NoCkptOps (loopIter p now s)
    unfold loopIter
    split
    · exact ⟨hen, hops⟩
    · have hsel : NoCkptOps (selectNext p s) := by
        rcases selectNext_spec p s with heq | ⟨r, rest, -, -, heq⟩ |
          ⟨-, ops, lcb, -, -, -, hops2, heq⟩ <;> rw [heq]
        · exact ⟨hen, hops⟩
        · exact ⟨hen, hops⟩
        · rcases hops2 with ⟨ho, -⟩ | ⟨hc, -, -⟩
          · refine ⟨hen, ?_⟩
            show ops = []
            rw [ho]; exact hops
          · exact absurd hc (by simp [hen])
      have hrf : NoCkptOps (refill p now (selectNext p s)) := hsel
      have had : NoCkptOps (admitDispatch (refill p now (selectNext p s))) := by
        rcases admitDispatch_spec (refill p now (selectNext p s)) with heq |
          ⟨req, -, -, -, heq⟩ <;> rw [heq] <;> exact hrf
      rcases terminationCheck_spec
          (admitDispatch (refill p now (selectNext p s))) with ⟨heq, -⟩ |
        ⟨-, -, -, ops, hops2, heq⟩ <;> rw [heq]
      · exact had
      · rcases hops2 with ⟨hc, -⟩ | ⟨-, ho⟩
        · exact absurd hc (by simp [had.1])
        · exact ⟨had.1, by rw [ho]; exact had.2⟩
  | complete i oc now =>
    show NoCkptOps (completeTask jl i oc now s)
    rcases completeTask_spec jl i oc now s with heq | ⟨hi, heq⟩ <;>
      rw [heq] <;> exact ⟨hen, hops⟩

/-- C4: when `process_api_requests` runs with its default empty
`input_file` argument — as the CLI entry point `main()` always invokes it —
no checkpoint manager exists, so for the whole run the checkpoint store sees
no load, no save and no cleanup: its operation log stays empty. -/
theorem c4_no_checkpoint_ops_default_input
    (jl : String → Except String PyVal) (config : DomainConfig)
    (system_msg : String) (maxR maxT : ℚ) (max_attempts : Nat)
    (rows : List PyDict) (t0 : ℚ) (ck : Option LoadedCheckpoint)
    (events : List SchedEvent) :
    (schedRun jl
        { config := config, system_msg := system_msg,
          max_requests_per_minute := maxR, max_tokens_per_minute := maxT,
          max_attempts := max_attempts, input_file := "" }
        (initState
          { config := config, system_msg := system_msg,
            max_requests_per_minute := maxR, max_tokens_per_minute := maxT,
            max_attempts := max_attempts, input_file := "" }
          rows t0 ck) events).ckptOps = [] := by
  refine (schedRun_preserve _ _ NoCkptOps (noCkptOps_step _ _) events _ ?_).2
  constructor <;> simp [initState]

/-- Invariant of a cold run on an empty input: nothing is ever selected,
dispatched or completed, and the exhaustion flag never turns on, so the
loop's break condition never fires. -/
def EmptyStuck (s : SchedState) : Prop :=
  s.batches = [] ∧ s.retryQueue = [] ∧ s.nextRequest = none ∧
  s.inFlight = [] ∧ s.batches_exhausted = false ∧ s.finished = false

theorem emptyStuck_step (jl : String → Except String PyVal) (p : Params)
    (s : SchedState) (e : SchedEvent) (h : EmptyStuck s) :
    EmptyStuck (schedStep jl p s e) := by
  obtain ⟨hb, hq, hn, hifl, hex, hf⟩ := h
  cases e with
  | loopIter now =>
    show EmptyStuck (loopIter p now s)
    unfold loopIter
    split
    · exact ⟨hb, hq, hn, hifl, hex, hf⟩
    · have hsel : selectNext p s = s := by
        rcases selectNext_spec p s with heq | ⟨r, rest, -, hq2, -⟩ |
          ⟨hlt, _, _, -, -, -, -, -⟩
        · exact heq
        · rw [hq] at hq2; simp at hq2
        · rw [hb] at hlt; simp at hlt
      rw [hsel]
      have had : admitDispatch (refill p now s) = refill p now s := by
        rcases admitDispatch_spec (refill p now s) with heq |
          ⟨req, hn2, -, -, -⟩
        · exact heq
        · have hrn : (refill p now s).nextRequest = s.nextRequest := rfl
          rw [hrn, hn] at hn2; simp at hn2
      rw [had]
      have htc : terminationCheck (refill p now s) = refill p now s := by
        rcases terminationCheck_spec (refill p now s) with ⟨heq, -⟩ |
          ⟨-, hexh, -, -, -, -⟩
        · exact heq
        · have hre : (refill p now s).batches_exhausted
              = s.batches_exhausted := rfl
          rw [hre, hex] at hexh; simp at hexh
      rw [htc]
      exact ⟨hb, hq, hn, hifl, hex, hf⟩
  | complete i oc now =>
    show EmptyStuck (completeTask jl i oc now s)
    rcases completeTask_spec jl i oc now s with heq | ⟨hi, heq⟩
    · rw [heq]; exact ⟨hb, hq, hn, hifl, hex, hf⟩
    · rw [hifl] at hi; simp at hi

/-- C8 (evaluation of the code at the failing input): on an empty input
DataFrame from a cold start, every one of the loop's three exit conditions
holds trivially — nothing is in progress, no fresh batch remains and the
retry queue is empty — yet the loop never exits, because the
`batches_exhausted` flag is initialized `False` and is only ever set inside
the fresh-batch construction branch, which never runs: after any sequence
of transitions the run is still not finished. -/
theorem c8_empty_input_never_exits (jl : String → Except String PyVal)
    (p : Params) (t0 : ℚ) (events : List SchedEvent) :
    (process_api_requests jl p [] t0 events).finished = false := by
  have hinit : EmptyStuck (initState p [] t0 none) := by
    have hmb : mkBatches [] = [] := by simp [mkBatches]
    simp only [initState]
    split
    · exact ⟨hmb, rfl, rfl, rfl, rfl, rfl⟩
    · exact ⟨hmb, rfl, rfl, rfl, rfl, rfl⟩
  exact (schedRun_preserve jl p EmptyStuck (emptyStuck_step jl p) events _
    hinit).2.2.2.2.2

/-- Whether a checkpoint operation respects the save-payload contract of a
run with `total` batches. -/
def ckptSaveOk (total : Nat) : CkptOp → Bool
  | .save c =>
    decide (c.processed_batch_idx = c.results.length / BATCH_SIZE)
      && decide (c.total_batches = total)
  | _ => true

/-- The save-shape invariant, together with the batch-count anchor. -/
def CkptShape (total : Nat) (s : SchedState) : Prop :=
  s.batches.length = total ∧ s.ckptOps.all (ckptSaveOk total) = true

theorem ckptShape_step (jl : String → Except String PyVal) (p : Params)
    (total : Nat) (s : SchedState) (e : SchedEvent)
    (h : CkptShape total s) : CkptShape total (schedStep jl p s e) := by
  obtain ⟨hb, hops⟩ := h
  refine ⟨by rw [schedStep_batches]; exact hb, ?_⟩
  cases e with
  | loopIter now =>
    show (loopIter p now s).ckptOps.all _ = true
    unfold loopIter
    split
    · exact hops
    · have hsel : (selectNext p s).ckptOps.all (ckptSaveOk total) = true := by
        rcases selectNext_spec p s with heq | ⟨r, rest, -, -, heq⟩ |
          ⟨-, ops, lcb, -, -, -, hops2, heq⟩ <;> rw [heq]
        · exact hops
        · exact hops
        · show ops.all _ = true
          rcases hops2 with ⟨ho, -⟩ | ⟨-, ho, -⟩
          · rw [ho]; exact hops
          · rw [ho]
            simp only [List.all_append, List.all_cons, List.all_nil,
              ckptSaveOk, hops, Bool.true_and, Bool.and_true]
            simp [hb]
      have had : (admitDispatch (refill p now (selectNext p s))).ckptOps
          = (selectNext p s).ckptOps := by
        rcases admitDispatch_spec (refill p now (selectNext p s)) with heq |
          ⟨req, -, -, -, heq⟩ <;> rw [heq] <;> rfl
      rcases terminationCheck_spec
          (admitDispatch (refill p now (selectNext p s))) with ⟨heq, -⟩ |
        ⟨-, -, -, ops, hops2, heq⟩ <;> rw [heq]
      · rw [had]; exact hsel
      · show ops.all _ = true
        rcases hops2 with ⟨-, ho⟩ | ⟨-, ho⟩ <;> rw [ho, had] <;>
          simp [List.all_append, hsel, ckptSaveOk]
  | complete i oc now =>
    show (completeTask jl i oc now s).ckptOps.all _ = true
    rcases completeTask_spec jl i oc now s with heq | ⟨hi, heq⟩ <;>
      rw [heq] <;> exact hops

/-- C9: every checkpoint save a run performs (checkpointing enabled, one
save per `CHECKPOINT_INTERVAL` dispatched batches) writes as
`processed_batch_idx` exactly `len(accumulated results) // BATCH_SIZE`
computed at save time — a count derived from completed results, not the
dispatched-batch cursor — together with the results accumulated so far and
the total batch count. -/
theorem c9_checkpoint_save_shape (jl : String → Except String PyVal)
    (p : Params) (rows : List PyDict) (t0 : ℚ)
    (ck : Option LoadedCheckpoint) (events : List SchedEvent) :
    ((schedRun jl p (initState p rows t0 ck) events).ckptOps).all
      (ckptSaveOk (mkBatches rows).length) = true := by
  refine (schedRun_preserve jl p (CkptShape (mkBatches rows).length)
    (ckptShape_step jl p _) events _ ⟨?_, ?_⟩).2
  · simp only [initState]; cases ck <;> split <;> rfl
  · simp only [initState]; cases ck <;> split <;> rfl

/-- C7's bounds on the two rate-budget levels. -/
def BudgetBounded (p : Params) (s : SchedState) : Prop :=
  0 ≤ s.available_request_capacity ∧
  s.available_request_capacity ≤ p.max_requests_per_minute ∧
  0 ≤ s.available_token_capacity ∧
  s.available_token_capacity ≤ p.max_tokens_per_minute

/-- Clock readings along a run that never regress below the refill
bookkeeping's last reading. -/
def timesOk (jl : String → Except String PyVal) (p : Params) :
    SchedState → List SchedEvent → Bool
  | _, [] => true
  | s, e :: es =>
    (match e with
     | .loopIter now => decide (s.last_update_time ≤ now)
     | .complete _ _ _ => true) && timesOk jl p (schedStep jl p s e) es

theorem budgetBounded_refill (p : Params) (now : ℚ) (s : SchedState)
    (hr : 0 ≤ p.max_requests_per_minute) (ht : 0 ≤ p.max_tokens_per_minute)
    (htime : s.last_update_time ≤ now) (h : BudgetBounded p s) :
    BudgetBounded p (refill p now s) := by
  obtain ⟨a1, a2, a3, a4⟩ := h
  have hel : 0 ≤ now - s.last_update_time := by linarith
  refine ⟨?_, ?_, ?_, ?_⟩
  · show 0 ≤ min (s.available_request_capacity
        + p.max_requests_per_minute * (now - s.last_update_time) / 60)
        p.max_requests_per_minute
    have hx : 0 ≤ p.max_requests_per_minute * (now - s.last_update_time) / 60 :=
      div_nonneg (mul_nonneg hr hel) (by norm_num)
    exact le_min (by linarith) hr
  · exact min_le_right _ _
  · show 0 ≤ min (s.available_token_capacity
        + p.max_tokens_per_minute * (now - s.last_update_time) / 60)
        p.max_tokens_per_minute
    have hx : 0 ≤ p.max_tokens_per_minute * (now - s.last_update_time) / 60 :=
      div_nonneg (mul_nonneg ht hel) (by norm_num)
    exact le_min (by linarith) ht
  · exact min_le_right _ _

theorem budgetBounded_step (jl : String → Except String PyVal) (p : Params)
    (s : SchedState) (e : SchedEvent)
    (hr : 0 ≤ p.max_requests_per_minute) (ht : 0 ≤ p.max_tokens_per_minute)
    (hok : ∀ now, e = SchedEvent.loopIter now → s.last_update_time ≤ now)
    (h : BudgetBounded p s) : BudgetBounded p (schedStep jl p s e) := by
  cases e with
  | complete i oc now =>
    show BudgetBounded p (completeTask jl i oc now s)
    rcases completeTask_spec jl i oc now s with heq | ⟨hi, heq⟩ <;>
      rw [heq] <;> exact h
  | loopIter now =>
    show BudgetBounded p (loopIter p now s)
    unfold loopIter
    split
    · exact h
    · have h1 : BudgetBounded p (selectNext p s) := by
        rcases selectNext_spec p s with heq | ⟨r, rest, -, -, heq⟩ |
          ⟨-, ops, lcb, -, -, -, -, heq⟩ <;> rw [heq] <;> exact h
      have ht1 : (selectNext p s).last_update_time = s.last_update_time := by
        rcases selectNext_spec p s with heq | ⟨r, rest, -, -, heq⟩ |
          ⟨-, ops, lcb, -, -, -, -, heq⟩ <;> rw [heq]
      have h2 : BudgetBounded p (refill p now (selectNext p s)) :=
        budgetBounded_refill p now _ hr ht
          (by rw [ht1]; exact hok now rfl) h1
      have h3 : BudgetBounded p (admitDispatch (refill p now (selectNext p s))) := by
        rcases admitDispatch_spec (refill p now (selectNext p s)) with heq |
          ⟨req, -, hc1, hc2, heq⟩ <;> rw [heq]
        · exact h2
        · obtain ⟨a1, a2, a3, a4⟩ := h2
          have hc0 : (0 : ℚ) ≤ req.token_consumption := by positivity
          refine ⟨?_, ?_, ?_, ?_⟩
          · show 0 ≤ (refill p now (selectNext p s)).available_request_capacity - 1
            linarith
          · show (refill p now (selectNext p s)).available_request_capacity - 1
                ≤ p.max_requests_per_minute
            linarith
          · show 0 ≤ (refill p now (selectNext p s)).available_token_capacity
                - (req.token_consumption : ℚ)
            linarith
          · show (refill p now (selectNext p s)).available_token_capacity
                - (req.token_consumption : ℚ) ≤ p.max_tokens_per_minute
            linarith
      rcases terminationCheck_spec
          (admitDispatch (refill p now (selectNext p s))) with ⟨heq, -⟩ |
        ⟨-, -, -, ops, -, heq⟩ <;> rw [heq] <;> exact h3

/-- C7: throughout every run whose loop-iteration clock readings never run
backwards, both budget levels stay within `[0, capacity]`: the refill clamps
each level at its capacity and adds a non-negative amount, and capacity is
only subtracted after the admission check (`requests ≥ 1` and `tokens ≥
token_consumption`) succeeds in the same iteration. -/
theorem c7_budget_bounds (jl : String → Except String PyVal) (p : Params)
    (rows : List PyDict) (t0 : ℚ) (ck : Option LoadedCheckpoint)
    (events : List SchedEvent)
    (hr : 0 ≤ p.max_requests_per_minute) (ht : 0 ≤ p.max_tokens_per_minute)
    (hok : timesOk jl p (initState p rows t0 ck) events = true) :
    BudgetBounded p (schedRun jl p (initState p rows t0 ck) events) := by
  have H : ∀ (es : List SchedEvent) (s : SchedState), BudgetBounded p s →
      timesOk jl p s es = true → BudgetBounded p (schedRun jl p s es) := by
    intro es
    induction es with
    | nil => intro s h _; exact h
    | cons e es2 ih =>
      intro s h hok2
      simp only [timesOk, Bool.and_eq_true] at hok2
      refine ih _ (budgetBounded_step jl p s e hr ht ?_ h) hok2.2
      intro nw hnw
      subst hnw
      simpa using hok2.1
  have hcap1 : (initState p rows t0 ck).available_request_capacity
      = p.max_requests_per_minute := by
    simp only [initState]; cases ck <;> split <;> rfl
  have hcap2 : (initState p rows t0 ck).available_token_capacity
      = p.max_tokens_per_minute := by
    simp only [initState]; cases ck <;> split <;> rfl
  refine H events _ ⟨?_, ?_, ?_, ?_⟩ hok
  · rw [hcap1]; exact hr
  · rw [hcap1]
  · rw [hcap2]; exact ht
  · rw [hcap2]

/-- A concrete parameter bundle for witness executions. -/
def p0 : Params :=
  { config := cfg0, system_msg := "", max_requests_per_minute := 100,
    max_tokens_per_minute := 200000, max_attempts := 5, input_file := "" }

/-- C7 (witness): at the defaults (100 requests/minute, 200000
tokens/minute) the bounds hold on the state a run reaches. -/
theorem c7_budget_bounds_witness :
    BudgetBounded p0 (schedRun jl0 p0 (initState p0 [item0] 0 none) []) :=
  c7_budget_bounds jl0 p0 [item0] 0 none [] (by norm_num [p0])
    (by norm_num [p0]) rfl

/-- A one-row input for the terminating witness run. -/
def rows0 : List PyDict := [item0]

/-- A terminating witness run: one loop iteration constructs and dispatches
the single batch, its completion succeeds (the oracle `jl0` parses every
reply to a one-element array holding an empty record, which passes the
length check), and the next loop iteration breaks. -/
def events0 : List SchedEvent :=
  [SchedEvent.loopIter 0, SchedEvent.complete 0 (CallOutcome.success "x") 0,
   SchedEvent.loopIter 0]

/-- Evaluation of the witness run: it terminates, and its result list is the
parsed reply appended verbatim — a single empty record. -/
theorem run0_eval :
    (process_api_requests jl0 p0 rows0 0 events0).finished = true ∧
    (process_api_requests jl0 p0 rows0 0 events0).all_results = [[]] := by
  constructor <;>
  · simp only [process_api_requests, schedRun, List.foldl, schedStep, events0]
    norm_num [initState, p0, rows0, jl0, cfg0, item0, mkBatches, BATCH_SIZE,
      CHECKPOINT_INTERVAL, loopIter, selectNext, refill, admitDispatch,
      terminationCheck, completeTask, call_api, tryResponse, recordError,
      mkAPIRequest, count_tokens, StatusTracker.init, cleanText, min_def]

/-- C1 (witness): the terminating one-row cold run produces exactly one
result record. -/
theorem c1_completeness_witness :
    (process_api_requests jl0 p0 rows0 0 events0).all_results.length
      = rows0.length :=
  c1_completeness_cold_run jl0 p0 rows0 0 events0 run0_eval.1

/-- C3 (counterexample): the input row carries identifier `"A"`, the run
terminates, yet `"A"` appears in no result record — the accepted reply was
a right-length array holding an empty record, and the success path appends
it verbatim, validating only its length and never its identifier contents.
The claimed "appears in exactly one result record of the final result list"
is false on the code. -/
theorem c3_identifier_counterexample :
    (process_api_requests jl0 p0 rows0 0 events0).finished = true ∧
    ((process_api_requests jl0 p0 rows0 0 events0).all_results.filter
        (fun r => decide (dictGet r "ticket_id" = PyLit.pstr "A"))).length
      = 0 ∧
    ¬ ((process_api_requests jl0 p0 rows0 0 events0).all_results.filter
        (fun r => decide (dictGet r "ticket_id" = PyLit.pstr "A"))).length
      = 1 := by
  refine ⟨run0_eval.1, ?_, ?_⟩ <;> rw [run0_eval.2] <;> decide
